import Mathlib

/-!
Shallow embedding of the toyforth virtual machine (`src/main.rs`):
a stack-based VM with an incremental line compiler for a Forth-like
language.  Machine integers (`usize`) are modelled as `Nat` with explicit
wraparound modulo `2 ^ 64` where the Rust release build wraps; a Rust
panic (division by zero, out-of-range instruction fetch via `.unwrap()`)
is modelled as an explicit `panic` outcome distinct from the recoverable
`VMErr` results.  Rust `Vec` stacks push/pop at the tail; here the head
of the list is the top of the stack.  `print!` output is accumulated in
an `output` field of the state.
-/

deriving instance DecidableEq for Except

namespace ToyForth

/-- `usize::MAX + 1`: the modulus of 64-bit unsigned machine arithmetic. -/
def USIZE_BOUND : Nat := 2 ^ 64

/-- Wrapping of a `Nat` into the `usize` range (release-build overflow). -/
def wrap (n : Nat) : Nat := n % USIZE_BOUND

/-- `a + b` on `usize` with wraparound. -/
def usizeAdd (a b : Nat) : Nat := wrap (a + b)

/-- `a - b` on `usize` with wraparound (two's-complement style; agrees with
Rust wrapping subtraction for operands below `USIZE_BOUND`). -/
def usizeSub (a b : Nat) : Nat := wrap (a + USIZE_BOUND - b)

/-- `a * b` on `usize` with wraparound. -/
def usizeMul (a b : Nat) : Nat := wrap (a * b)

/-- The instruction set: `enum CompiledInstruction` of the source. -/
inductive CompiledInstruction where
  | DUP
  | DROP
  | SWAP
  | ADD
  | SUB
  | MUL
  | DIV
  | CALL
  | JUMP
  | RET
  | NOP
  | IMM (n : Nat)
  | PRINT
deriving DecidableEq, Repr

/-- A dictionary entry: `struct Word` of the source. -/
structure Word where
  name : String
  inline_iseq : List CompiledInstruction
deriving DecidableEq, Repr

/-- The compiler mode: `enum CompileMode` of the source. -/
inductive CompileMode where
  | TopLevel
  | Definition
  | DefinitionBody
deriving DecidableEq, Repr

/-- The machine state: `struct VM` of the source, with an extra `output`
field recording the text written by `print!`. -/
structure VM where
  data_stack : List Nat
  call_stack : List Nat
  instruction_memory : List CompiledInstruction
  instruction_pointer : Nat
  compile_mode : CompileMode
  words : List Word
  in_comment : Bool
  output : String
deriving DecidableEq, Repr

/-- The recoverable error type: `enum VMErr` of the source. -/
inductive VMErr where
  | StackUnderflow
  | InvalidToken (s : String)
deriving DecidableEq, Repr

/-- Outcome of executing instructions: normal return, a recoverable
`VMErr` (carrying the machine state at the failure point, since the Rust
code mutates `self` in place), or a Rust panic (process-fatal). -/
inductive ExecOut where
  | ok (vm : VM)
  | err (e : VMErr) (vm : VM)
  | panic
deriving DecidableEq, Repr

/-- `VM::new`: empty stacks and instruction memory, `TopLevel` mode, and
the eleven built-in dictionary words. -/
def VM.new : VM :=
  { data_stack := []
    call_stack := []
    instruction_memory := []
    instruction_pointer := 0
    compile_mode := .TopLevel
    in_comment := false
    words :=
      [ ⟨"DUP", [.DUP]⟩
      , ⟨"DROP", [.DROP]⟩
      , ⟨"SWAP", [.SWAP]⟩
      , ⟨"+", [.ADD]⟩
      , ⟨"-", [.SUB]⟩
      , ⟨"*", [.MUL]⟩
      , ⟨"/", [.DIV]⟩
      , ⟨"CALL", [.CALL]⟩
      , ⟨"JUMP", [.JUMP]⟩
      , ⟨";", [.RET]⟩
      , ⟨".", [.PRINT]⟩ ]
    output := "" }

/-- `VM::pop_data_stack`: pop the data stack, `StackUnderflow` when empty
(a failed `Vec::pop` leaves the empty vector unchanged). -/
def pop_data_stack (vm : VM) : Except VMErr (Nat × VM) :=
  match vm.data_stack with
  | [] => .error .StackUnderflow
  | n :: rest => .ok (n, { vm with data_stack := rest })

/-- `VM::pop_call_stack`: pop the call stack, `StackUnderflow` when empty. -/
def pop_call_stack (vm : VM) : Except VMErr (Nat × VM) :=
  match vm.call_stack with
  | [] => .error .StackUnderflow
  | n :: rest => .ok (n, { vm with call_stack := rest })

/-- `VM::exec_ins`: execute one instruction.  Mutations made before a
failing pop persist in the `err` state, exactly as in the Rust code
(e.g. `CALL` pushes the call stack before popping the data stack).
`DIV` with a zero divisor is `a / b` on `usize`, which panics. -/
def exec_ins (vm : VM) (ins : CompiledInstruction) : ExecOut :=
  match ins with
  | .NOP => .ok vm
  | .DUP =>
    match pop_data_stack vm with
    | .error e => .err e vm
    | .ok (tos, vm1) => .ok { vm1 with data_stack := tos :: tos :: vm1.data_stack }
  | .DROP =>
    match pop_data_stack vm with
    | .error e => .err e vm
    | .ok (_, vm1) => .ok vm1
  | .SWAP =>
    match pop_data_stack vm with
    | .error e => .err e vm
    | .ok (b, vm1) =>
      match pop_data_stack vm1 with
      | .error e => .err e vm1
      | .ok (a, vm2) => .ok { vm2 with data_stack := a :: b :: vm2.data_stack }
  | .ADD =>
    match pop_data_stack vm with
    | .error e => .err e vm
    | .ok (b, vm1) =>
      match pop_data_stack vm1 with
      | .error e => .err e vm1
      | .ok (a, vm2) => .ok { vm2 with data_stack := usizeAdd a b :: vm2.data_stack }
  | .SUB =>
    match pop_data_stack vm with
    | .error e => .err e vm
    | .ok (b, vm1) =>
      match pop_data_stack vm1 with
      | .error e => .err e vm1
      | .ok (a, vm2) => .ok { vm2 with data_stack := usizeSub a b :: vm2.data_stack }
  | .MUL =>
    match pop_data_stack vm with
    | .error e => .err e vm
    | .ok (b, vm1) =>
      match pop_data_stack vm1 with
      | .error e => .err e vm1
      | .ok (a, vm2) => .ok { vm2 with data_stack := usizeMul a b :: vm2.data_stack }
  | .DIV =>
    match pop_data_stack vm with
    | .error e => .err e vm
    | .ok (b, vm1) =>
      match pop_data_stack vm1 with
      | .error e => .err e vm1
      | .ok (a, vm2) =>
        if b = 0 then .panic
        else .ok { vm2 with data_stack := a / b :: vm2.data_stack }
  | .IMM n => .ok { vm with data_stack := n :: vm.data_stack }
  | .CALL =>
    let vm1 := { vm with call_stack := vm.instruction_pointer :: vm.call_stack }
    match pop_data_stack vm1 with
    | .error e => .err e vm1
    | .ok (n, vm2) => .ok { vm2 with instruction_pointer := n }
  | .JUMP =>
    match pop_data_stack vm with
    | .error e => .err e vm
    | .ok (n, vm1) => .ok { vm1 with instruction_pointer := n }
  | .RET =>
    match pop_call_stack vm with
    | .error e => .err e vm
    | .ok (n, vm1) => .ok { vm1 with instruction_pointer := n }
  | .PRINT =>
    match pop_data_stack vm with
    | .error e => .err e vm
    | .ok (tos, vm1) => .ok { vm1 with output := vm1.output ++ " " ++ Nat.repr tos }

/-- The fetch-execute loop of `VM::run`, with explicit fuel (`none` means
the fuel ran out before the loop finished; the Rust loop has no bound and
can run forever).  `old_len` is the pre-call instruction-memory length to
truncate back to; a fetch outside the memory hits `.unwrap()` and panics. -/
def runLoop : Nat → Nat → VM → Option ExecOut
  | 0, _, _ => none
  | fuel + 1, old_len, vm =>
    if vm.instruction_pointer = vm.instruction_memory.length then
      some (.ok { vm with instruction_memory := vm.instruction_memory.take old_len })
    else
      match vm.instruction_memory[vm.instruction_pointer]? with
      | none => some .panic
      | some ins =>
        let vm1 := { vm with instruction_pointer := vm.instruction_pointer + 1 }
        match exec_ins vm1 ins with
        | .ok vm2 => runLoop fuel old_len vm2
        | .err e vm2 =>
          some (.err e { vm2 with instruction_memory := vm2.instruction_memory.take old_len })
        | .panic => some .panic

/-- `VM::run`: append `ins_seq` to instruction memory, set the instruction
pointer to the start of the appended region, and loop. -/
def run (fuel : Nat) (vm : VM) (ins_seq : List CompiledInstruction) : Option ExecOut :=
  let old_len := vm.instruction_memory.length
  runLoop fuel old_len
    { vm with
      instruction_pointer := old_len
      instruction_memory := vm.instruction_memory ++ ins_seq }

/-- `VM::lookup_word`: `self.words.iter().find(|w| w.name == token)` —
front-to-back scan returning the first entry whose name matches. -/
def lookup_word (vm : VM) (token : String) : Option Word :=
  vm.words.find? (fun w => w.name = token)

/-- One decimal digit of `usize::from_str`. -/
def digitVal (c : Char) : Option Nat :=
  if '0' ≤ c ∧ c ≤ '9' then some (c.toNat - '0'.toNat) else none

/-- Accumulating digit parse; `none` on the first non-digit character. -/
def parseDigitsAux : List Char → Nat → Option Nat
  | [], acc => some acc
  | c :: rest, acc =>
    match digitVal c with
    | none => none
    | some d => parseDigitsAux rest (acc * 10 + d)

/-- `usize::from_str`: an optional leading `+` followed by at least one
decimal digit, failing on any other character, on the empty digit string,
and on overflow past `usize::MAX` (Rust reports `PosOverflow`; here the
final-value bound is equivalent to the step-wise checked arithmetic). -/
def parseUsize (s : String) : Option Nat :=
  let cs :=
    match s.toList with
    | '+' :: rest => rest
    | cs => cs
  match cs with
  | [] => none
  | _ =>
    match parseDigitsAux cs 0 with
    | none => none
    | some n => if n < USIZE_BOUND then some n else none

/-- `VM::token_to_instruction_seq`: dictionary lookup first; otherwise
parse as a non-negative integer into a single `IMM`; otherwise
`InvalidToken`. -/
def token_to_instruction_seq (vm : VM) (token : String) :
    Except VMErr (List CompiledInstruction) :=
  match lookup_word vm token with
  | none =>
    match parseUsize token with
    | some num => .ok [.IMM num]
    | none => .error (.InvalidToken token)
  | some word => .ok word.inline_iseq

/-- `VM::compile_token`: comment handling first (independent of mode),
then the three-mode state machine.  Returns the updated machine and the
updated transient output sequence; on error both are unchanged (the Rust
`?` fires before any instruction is pushed for the failing token). -/
def compile_token (vm : VM) (token : String) (ins_seq : List CompiledInstruction) :
    Except VMErr (VM × List CompiledInstruction) :=
  if vm.in_comment then
    if token = ")" then .ok ({ vm with in_comment := false }, ins_seq)
    else .ok (vm, ins_seq)
  else if token = "(" then .ok ({ vm with in_comment := true }, ins_seq)
  else
    match vm.compile_mode with
    | .TopLevel =>
      if token = ":" then .ok ({ vm with compile_mode := .Definition }, ins_seq)
      else
        match token_to_instruction_seq vm token with
        | .error e => .error e
        | .ok is => .ok (vm, ins_seq ++ is)
    | .Definition =>
      .ok
        ({ vm with
            words := vm.words ++
              [⟨token, [.IMM vm.instruction_memory.length, .CALL]⟩]
            compile_mode := .DefinitionBody }, ins_seq)
    | .DefinitionBody =>
      match token_to_instruction_seq vm token with
      | .error e => .error e
      | .ok is =>
        let vm1 := { vm with instruction_memory := vm.instruction_memory ++ is }
        if token = ";" then .ok ({ vm1 with compile_mode := .TopLevel }, ins_seq)
        else .ok (vm1, ins_seq)

/-- Whitespace tokenization.  The source's `compile_line` loop repeatedly
splits at the first whitespace character and skips empty tokens, which
yields exactly the non-empty maximal whitespace-free runs, left to right;
`cur` holds the characters of the current token in reverse. -/
def splitWs : List Char → List Char → List String
  | [], cur => if cur.isEmpty then [] else [String.mk cur.reverse]
  | c :: rest, cur =>
    if c.isWhitespace then
      if cur.isEmpty then splitWs rest []
      else String.mk cur.reverse :: splitWs rest []
    else splitWs rest (c :: cur)

/-- Tokens of a line. -/
def tokenize (line : String) : List String := splitWs line.toList []

/-- Token-by-token compilation.  The Rust caller's `vm` and `ins_seq` are
mutable references that survive an error, so the error case returns the
state reached before the failing token; the `?` in the source makes the
first error abort the remaining tokens. -/
def compile_tokens (vm : VM) (toks : List String) (ins_seq : List CompiledInstruction) :
    Except VMErr Unit × VM × List CompiledInstruction :=
  match toks with
  | [] => (.ok (), vm, ins_seq)
  | t :: ts =>
    match compile_token vm t ins_seq with
    | .error e => (.error e, vm, ins_seq)
    | .ok (vm1, seq1) => compile_tokens vm1 ts seq1

/-- `VM::compile_line`: tokenize and compile each token in order. -/
def compile_line (vm : VM) (line : String) (ins_seq : List CompiledInstruction) :
    Except VMErr Unit × VM × List CompiledInstruction :=
  compile_tokens vm (tokenize line) ins_seq

/-- Outcome of one REPL iteration of `main`: the loop continues with the
new state, or the process dies (a panic escaped `run`). -/
inductive ReplOut where
  | next (vm : VM)
  | fatal
deriving DecidableEq, Repr

/-- One iteration of the `main` loop: clear the transient sequence,
compile the line, run the result.  Both `Err` arms print and continue;
a panic is not caught anywhere and kills the process. -/
def repl_step (fuel : Nat) (vm : VM) (line : String) : Option ReplOut :=
  match compile_line vm line [] with
  | (.error _, vm1, _) => some (.next vm1)
  | (.ok _, vm1, seq) =>
    match run fuel vm1 seq with
    | none => none
    | some (.ok vm2) => some (.next vm2)
    | some (.err _ vm2) => some (.next vm2)
    | some .panic => some .fatal

/-- The instruction memory of an execution outcome equals `m` (vacuous for
a panic, which never returns to the caller). -/
def outImemEq (m : List CompiledInstruction) : ExecOut → Prop
  | .ok vm => vm.instruction_memory = m
  | .err _ vm => vm.instruction_memory = m
  | .panic => True

/-- For a `run` result: whenever the call returns (with success or with a
`VMErr`), the instruction memory equals `orig`. -/
def ImemRestored (orig : List CompiledInstruction) : Option ExecOut → Prop
  | some out => outImemEq orig out
  | none => True

lemma exec_ins_imem (vm : VM) (ins : CompiledInstruction) :
    outImemEq vm.instruction_memory (exec_ins vm ins) := by
  obtain ⟨ds, cs, im, ip0, cm, ws, ic, op⟩ := vm
  cases ins <;>
    rcases ds with _ | ⟨b, _ | ⟨a, ds⟩⟩ <;>
    rcases cs with _ | ⟨c, cs⟩ <;>
    first
      | rfl
      | trivial
      | (dsimp only [exec_ins, pop_data_stack]; split <;> trivial)

lemma runLoop_done (fuel L : Nat) (vm : VM)
    (hip : vm.instruction_pointer = vm.instruction_memory.length) :
    runLoop (fuel + 1) L vm =
      some (.ok { vm with instruction_memory := vm.instruction_memory.take L }) := by
  rw [runLoop, if_pos hip]

lemma runLoop_step (fuel L : Nat) (vm : VM) (ins : CompiledInstruction)
    (hip : vm.instruction_pointer ≠ vm.instruction_memory.length)
    (hins : vm.instruction_memory[vm.instruction_pointer]? = some ins) :
    runLoop (fuel + 1) L vm =
      match exec_ins { vm with instruction_pointer := vm.instruction_pointer + 1 } ins with
      | .ok vm2 => runLoop fuel L vm2
      | .err e vm2 =>
        some (.err e { vm2 with instruction_memory := vm2.instruction_memory.take L })
      | .panic => some .panic := by
  rw [runLoop, if_neg hip, hins]

lemma runLoop_fetch_fail (fuel L : Nat) (vm : VM)
    (hip : vm.instruction_pointer ≠ vm.instruction_memory.length)
    (hnone : vm.instruction_memory[vm.instruction_pointer]? = none) :
    runLoop (fuel + 1) L vm = some .panic := by
  rw [runLoop, if_neg hip, hnone]

lemma fetch_appended (im seq : List CompiledInstruction) (k : Nat) :
    (im ++ seq)[im.length + k]? = seq[k]? := by
  rw [List.getElem?_append_right (Nat.le_add_right _ _)]
  congr 1
  omega

lemma runLoop_step_appended (fuel : Nat) (vm : VM) (im seq : List CompiledInstruction)
    (k : Nat) (ins : CompiledInstruction)
    (him : vm.instruction_memory = im ++ seq)
    (hip : vm.instruction_pointer = im.length + k)
    (hk : k < seq.length)
    (hins : seq[k]? = some ins) :
    runLoop (fuel + 1) im.length vm =
      match exec_ins { vm with instruction_pointer := im.length + k + 1 } ins with
      | .ok vm2 => runLoop fuel im.length vm2
      | .err e vm2 =>
        some (.err e { vm2 with instruction_memory := vm2.instruction_memory.take im.length })
      | .panic => some .panic := by
  have h1 : vm.instruction_pointer ≠ vm.instruction_memory.length := by
    rw [him, hip, List.length_append]
    omega
  have h2 : vm.instruction_memory[vm.instruction_pointer]? = some ins := by
    rw [him, hip, fetch_appended, hins]
  rw [runLoop_step fuel im.length vm ins h1 h2, hip]

lemma runLoop_imem (fuel : Nat) :
    ∀ (L : Nat) (vm : VM) (out : ExecOut), runLoop fuel L vm = some out →
      outImemEq (vm.instruction_memory.take L) out := by
  induction fuel with
  | zero => intro L vm out h; simp [runLoop] at h
  | succ fuel ih =>
    intro L vm out h
    by_cases hip : vm.instruction_pointer = vm.instruction_memory.length
    · rw [runLoop_done fuel L vm hip] at h
      cases h
      exact rfl
    · cases hfetch : vm.instruction_memory[vm.instruction_pointer]? with
      | none =>
        rw [runLoop_fetch_fail fuel L vm hip hfetch] at h
        cases h
        trivial
      | some ins =>
        rw [runLoop_step fuel L vm ins hip hfetch] at h
        have hx := exec_ins_imem { vm with instruction_pointer := vm.instruction_pointer + 1 } ins
        cases hex : exec_ins { vm with instruction_pointer := vm.instruction_pointer + 1 } ins with
        | ok vm2 =>
          rw [hex] at h hx
          have h2 := ih L vm2 out h
          simp only [outImemEq] at hx
          rw [hx] at h2
          exact h2
        | err e vm2 =>
          rw [hex] at h hx
          cases h
          simp only [outImemEq] at hx ⊢
          rw [hx]
        | panic =>
          rw [hex] at h
          cases h
          trivial

/-- C1: for every instruction sequence passed to `run`, when `run` returns
(with success or with an error) the instruction memory is exactly its
pre-call content: the transient region appended by this call is truncated
off and no instruction below the pre-call length is modified. -/
theorem run_restores_instruction_memory (fuel : Nat) (vm : VM)
    (ins_seq : List CompiledInstruction) :
    ImemRestored vm.instruction_memory (run fuel vm ins_seq) := by
  unfold run
  cases hr : runLoop fuel vm.instruction_memory.length
      { vm with
        instruction_pointer := vm.instruction_memory.length
        instruction_memory := vm.instruction_memory ++ ins_seq } with
  | none => trivial
  | some out =>
    have h := runLoop_imem fuel vm.instruction_memory.length _ out hr
    simpa [ImemRestored, List.take_left] using h

/-- C2: `CALL` first pushes the current instruction pointer (which `run`
has already advanced past the call instruction) onto the call stack and
then pops the data stack into the instruction pointer — so on an empty
data stack the underflow state still has the return address pushed;
`JUMP` pops the data stack into the instruction pointer without touching
the call stack; `RET` pops the call stack into the instruction pointer. -/
theorem call_jump_ret_semantics
    (n ip : Nat) (ds cs : List Nat) (im : List CompiledInstruction)
    (cm : CompileMode) (ws : List Word) (ic : Bool) (op : String) :
    (exec_ins ⟨n :: ds, cs, im, ip, cm, ws, ic, op⟩ .CALL =
      .ok ⟨ds, ip :: cs, im, n, cm, ws, ic, op⟩) ∧
    (exec_ins ⟨[], cs, im, ip, cm, ws, ic, op⟩ .CALL =
      .err .StackUnderflow ⟨[], ip :: cs, im, ip, cm, ws, ic, op⟩) ∧
    (exec_ins ⟨n :: ds, cs, im, ip, cm, ws, ic, op⟩ .JUMP =
      .ok ⟨ds, cs, im, n, cm, ws, ic, op⟩) ∧
    (exec_ins ⟨ds, n :: cs, im, ip, cm, ws, ic, op⟩ .RET =
      .ok ⟨ds, cs, im, n, cm, ws, ic, op⟩) :=
  ⟨rfl, rfl, rfl, rfl⟩

/-- C3: in `Definition` mode, any token not consumed by comment handling
(the comment flag is off and the token is not `"("`) becomes, with no
validation, a new dictionary entry whose body is exactly
`IMM(instruction-memory length)` followed by `CALL`, and the mode moves
unconditionally to `DefinitionBody`; the transient sequence is untouched. -/
theorem definition_mode_defines_word (vm : VM) (token : String)
    (ins_seq : List CompiledInstruction)
    (hmode : vm.compile_mode = .Definition)
    (hcmt : vm.in_comment = false)
    (hpar : token ≠ "(") :
    compile_token vm token ins_seq =
      .ok ({ vm with
              words := vm.words ++
                [⟨token, [.IMM vm.instruction_memory.length, .CALL]⟩]
              compile_mode := .DefinitionBody }, ins_seq) := by
  simp [compile_token, hmode, hcmt, hpar]

theorem definition_mode_defines_word_witness :
    ({ VM.new with compile_mode := .Definition } : VM).compile_mode = .Definition ∧
    compile_token { VM.new with compile_mode := .Definition } "17" [] =
      .ok ({ { VM.new with compile_mode := .Definition } with
              words := ({ VM.new with compile_mode := .Definition } : VM).words ++
                [⟨"17", [.IMM ({ VM.new with compile_mode := .Definition } :
                    VM).instruction_memory.length, .CALL]⟩]
              compile_mode := .DefinitionBody }, []) :=
  ⟨rfl, definition_mode_defines_word { VM.new with compile_mode := .Definition }
    "17" [] rfl rfl (by decide)⟩

/-- C4: `token_to_instruction_seq` returns the matching dictionary word's
body when the token is found, else a single `IMM n` when the token parses
as a non-negative base-10 integer `n`, else it fails with
`InvalidToken(token)` producing no instruction. -/
theorem token_resolution_cases (vm : VM) (token : String) :
    (∀ w, lookup_word vm token = some w →
      token_to_instruction_seq vm token = .ok w.inline_iseq) ∧
    (∀ n, lookup_word vm token = none → parseUsize token = some n →
      token_to_instruction_seq vm token = .ok [.IMM n]) ∧
    (lookup_word vm token = none → parseUsize token = none →
      token_to_instruction_seq vm token = .error (.InvalidToken token)) := by
  refine ⟨?_, ?_, ?_⟩ <;> intros <;> simp [token_to_instruction_seq, *]

theorem token_resolution_cases_witness :
    token_to_instruction_seq VM.new "DUP" = .ok (Word.mk "DUP" [.DUP]).inline_iseq ∧
    token_to_instruction_seq VM.new "42" = .ok [.IMM 42] ∧
    token_to_instruction_seq VM.new "abc" = .error (.InvalidToken "abc") :=
  ⟨(token_resolution_cases VM.new "DUP").1 ⟨"DUP", [.DUP]⟩ (by decide),
   (token_resolution_cases VM.new "42").2.1 42 (by decide) (by decide),
   (token_resolution_cases VM.new "abc").2.2 (by decide) (by decide)⟩

/-- C5: dictionary lookup scans the word list front to back and returns
the first entry whose name equals the token; hence, whatever user entries
are appended later, a lookup of that name still returns the same first
entry — a later user definition of a name colliding with an earlier
(built-in) word is never returned. -/
theorem lookup_first_match (vm : VM) (token : String)
    (pre post : List Word) (w : Word)
    (hws : vm.words = pre ++ w :: post)
    (hname : w.name = token)
    (hpre : ∀ w2 ∈ pre, w2.name ≠ token) :
    lookup_word vm token = some w ∧
    (∀ (user : List Word) (vm2 : VM), vm2.words = vm.words ++ user →
      lookup_word vm2 token = some w) := by
  have hfind : ∀ tail : List Word,
      (pre ++ w :: tail).find? (fun w2 => w2.name = token) = some w := by
    intro tail
    rw [List.find?_append]
    have hnone : pre.find? (fun w2 => w2.name = token) = none := by
      rw [List.find?_eq_none]
      intro x hx
      simpa using hpre x hx
    rw [hnone, List.find?_cons_of_pos _ (by simpa using hname)]
    rfl
  constructor
  · show vm.words.find? _ = some w
    rw [hws]
    exact hfind post
  · intro user vm2 hws2
    show vm2.words.find? _ = some w
    rw [hws2, hws, List.append_assoc, List.cons_append]
    exact hfind (post ++ user)

theorem lookup_first_match_witness :
    lookup_word { VM.new with words := VM.new.words ++ [⟨"DUP", [.NOP]⟩] } "DUP" =
      some ⟨"DUP", [.DUP]⟩ :=
  (lookup_first_match VM.new "DUP" []
      [⟨"DROP", [.DROP]⟩, ⟨"SWAP", [.SWAP]⟩, ⟨"+", [.ADD]⟩, ⟨"-", [.SUB]⟩,
       ⟨"*", [.MUL]⟩, ⟨"/", [.DIV]⟩, ⟨"CALL", [.CALL]⟩, ⟨"JUMP", [.JUMP]⟩,
       ⟨";", [.RET]⟩, ⟨".", [.PRINT]⟩]
      ⟨"DUP", [.DUP]⟩ rfl rfl (by decide)).2
    [⟨"DUP", [.NOP]⟩] { VM.new with words := VM.new.words ++ [⟨"DUP", [.NOP]⟩] } rfl

/-- C6 counterexample: on the line `"abc 3"` the token `"abc"` fails with
`InvalidToken`, and the later token `"3"` of the same line is NOT
compiled — the returned transient sequence is empty, not `[IMM 3]`, so
`compile_line` does not continue past the failing token. -/
theorem compile_line_not_continuing_counterexample :
    compile_line VM.new "abc 3" [] =
      (.error (.InvalidToken "abc"), VM.new, []) ∧
    (compile_line VM.new "abc 3" []).2.2 ≠ [CompiledInstruction.IMM 3] := by
  exact ⟨by decide, by decide⟩

/-- C6 amended: when a token of a line fails to compile with
`InvalidToken`, no instruction is appended for that token, the error is
returned at once and the remaining tokens of the line are NOT compiled
(the result does not depend on them); instructions compiled for earlier
tokens of the line remain committed. -/
theorem invalid_token_aborts_line (vm vm1 : VM) (line t : String)
    (ts1 ts2 : List String) (seq seq1 : List CompiledInstruction) (e : VMErr)
    (htoks : tokenize line = ts1 ++ t :: ts2)
    (hpre : compile_tokens vm ts1 seq = (.ok (), vm1, seq1))
    (herr : compile_token vm1 t seq1 = .error e) :
    compile_line vm line seq = (.error e, vm1, seq1) := by
  unfold compile_line
  rw [htoks]
  clear htoks
  induction ts1 generalizing vm seq with
  | nil =>
    rw [compile_tokens] at hpre
    cases hpre
    rw [List.nil_append, compile_tokens, herr]
  | cons t0 ts ih =>
    rw [compile_tokens] at hpre
    rw [List.cons_append, compile_tokens]
    cases h0 : compile_token vm t0 seq with
    | error e0 =>
      rw [h0] at hpre
      simp at hpre
    | ok p =>
      obtain ⟨vma, seqa⟩ := p
      rw [h0] at hpre
      exact ih vma seqa hpre

theorem invalid_token_aborts_line_witness :
    tokenize "3 abc 4" = ["3"] ++ "abc" :: ["4"] ∧
    compile_line VM.new "3 abc 4" [] =
      (.error (.InvalidToken "abc"), VM.new, [.IMM 3]) :=
  ⟨by decide,
   invalid_token_aborts_line VM.new VM.new "3 abc 4" "abc" ["3"] ["4"]
     [] [.IMM 3] (.InvalidToken "abc") (by decide) (by decide) (by decide)⟩

/-- C7 counterexample: executing the line `1 0 /` makes `run` panic
(Rust `a / b` with `b = 0` panics); the panic is not a `VMError`
terminating only the current `run` call, and the REPL step dies instead
of resuming — so division by zero IS fatal to the process. -/
theorem div_zero_fatal_counterexample :
    run 10 VM.new [.IMM 1, .IMM 0, .DIV] = some .panic ∧
    repl_step 10 VM.new "1 0 /" = some .fatal := by
  exact ⟨by decide, by decide⟩

/-- C7 amended: executing `div` with a zero divisor panics — a fatal trap
that aborts the whole process rather than returning a recoverable
`VMError`; every failure that `run` does return as a `VMError` (stack
underflow, and compile-time `InvalidToken`) is non-fatal and the REPL
resumes reading the next line. -/
theorem div_zero_panics_vmerrs_resume :
    (∀ (vm : VM) (a : Nat) (ds : List Nat), vm.data_stack = 0 :: a :: ds →
      exec_ins vm .DIV = .panic) ∧
    (∀ (fuel : Nat) (vm vm1 vm2 : VM) (line : String)
        (seq : List CompiledInstruction) (e : VMErr),
      compile_line vm line [] = (.ok (), vm1, seq) →
      run fuel vm1 seq = some (.err e vm2) →
      repl_step fuel vm line = some (.next vm2)) ∧
    (∀ (fuel : Nat) (vm vm1 : VM) (line : String)
        (seq : List CompiledInstruction) (e : VMErr),
      compile_line vm line [] = (.error e, vm1, seq) →
      repl_step fuel vm line = some (.next vm1)) := by
  refine ⟨?_, ?_, ?_⟩
  · intro vm a ds h
    simp [exec_ins, pop_data_stack, h]
  · intro fuel vm vm1 vm2 line seq e h1 h2
    simp [repl_step, h1, h2]
  · intro fuel vm vm1 line seq e h1
    simp [repl_step, h1]

theorem div_zero_panics_vmerrs_resume_witness :
    ({ VM.new with data_stack := [0, 1] } : VM).data_stack = 0 :: 1 :: [] ∧
    exec_ins { VM.new with data_stack := [0, 1] } .DIV = .panic ∧
    repl_step 10 VM.new "DROP" =
      some (.next { VM.new with instruction_pointer := 1 }) :=
  ⟨rfl,
   div_zero_panics_vmerrs_resume.1 { VM.new with data_stack := [0, 1] } 1 [] rfl,
   div_zero_panics_vmerrs_resume.2.1 10 VM.new VM.new
     { VM.new with instruction_pointer := 1 } "DROP" [.DROP] .StackUnderflow
     (by decide) (by decide)⟩

/-- C9: popping the data stack or the call stack while it is empty fails
with `StackUnderflow` and leaves that stack unchanged (still empty), and
every opcode popping an empty stack stops with this error: each
data-stack-popping opcode returns the `StackUnderflow` state with the
data stack still empty (`CALL` has already pushed the return address on
the call stack, but its data stack is untouched), `RET` fails likewise on
an empty call stack, and `run` surfaces the error. -/
theorem empty_stack_pop_underflow :
    (∀ vm : VM, vm.data_stack = [] →
      pop_data_stack vm = .error .StackUnderflow) ∧
    (∀ vm : VM, vm.call_stack = [] →
      pop_call_stack vm = .error .StackUnderflow) ∧
    (∀ (vm : VM) (ins : CompiledInstruction), vm.data_stack = [] →
      ins ∈ ([.DUP, .DROP, .SWAP, .ADD, .SUB, .MUL, .DIV, .JUMP, .PRINT] :
        List CompiledInstruction) →
      exec_ins vm ins = .err .StackUnderflow vm) ∧
    (∀ vm : VM, vm.data_stack = [] →
      exec_ins vm .CALL = .err .StackUnderflow
        { vm with call_stack := vm.instruction_pointer :: vm.call_stack }) ∧
    (∀ vm : VM, vm.call_stack = [] →
      exec_ins vm .RET = .err .StackUnderflow vm) ∧
    (∀ (fuel : Nat) (vm : VM), vm.data_stack = [] →
      run (fuel + 1) vm [.DROP] =
        some (.err .StackUnderflow
          { vm with instruction_pointer := vm.instruction_memory.length + 1 })) := by
  refine ⟨?_, ?_, ?_, ?_, ?_, ?_⟩
  · intro vm h
    simp [pop_data_stack, h]
  · intro vm h
    simp [pop_call_stack, h]
  · intro vm ins h hmem
    fin_cases hmem <;> simp [exec_ins, pop_data_stack, h]
  · intro vm h
    simp [exec_ins, pop_data_stack, h]
  · intro vm h
    simp [exec_ins, pop_call_stack, h]
  · intro fuel vm h
    show runLoop (fuel + 1) vm.instruction_memory.length _ = _
    rw [runLoop_step_appended fuel _ vm.instruction_memory [.DROP] 0 .DROP
      rfl (by simp) (by simp) rfl]
    simp [exec_ins, pop_data_stack, h, List.take_left]

theorem empty_stack_pop_underflow_witness :
    pop_data_stack VM.new = .error .StackUnderflow ∧
    pop_call_stack VM.new = .error .StackUnderflow ∧
    exec_ins VM.new .DUP = .err .StackUnderflow VM.new ∧
    run 1 VM.new [.DROP] =
      some (.err .StackUnderflow
        { VM.new with instruction_pointer := VM.new.instruction_memory.length + 1 }) :=
  ⟨empty_stack_pop_underflow.1 VM.new rfl,
   empty_stack_pop_underflow.2.1 VM.new rfl,
   empty_stack_pop_underflow.2.2.1 VM.new .DUP rfl (by decide),
   empty_stack_pop_underflow.2.2.2.2.2 0 VM.new rfl⟩

/-- C10: `run` is not total over control transfers to out-of-range
addresses: for `IMM n` followed by `JUMP` with `n` strictly greater than
the instruction-memory length after appending the sequence, the fetch
step unwraps a failed lookup and panics instead of returning a `VMError`. -/
theorem out_of_range_jump_panics (vm : VM) (n : Nat)
    (hn : vm.instruction_memory.length + 2 < n) :
    run 3 vm [.IMM n, .JUMP] = some .panic := by
  show runLoop 3 vm.instruction_memory.length _ = _
  rw [runLoop_step_appended 2 _ vm.instruction_memory [.IMM n, .JUMP] 0 (.IMM n)
    rfl (by simp) (by simp) rfl]
  show runLoop 2 vm.instruction_memory.length _ = _
  rw [runLoop_step_appended 1 _ vm.instruction_memory [.IMM n, .JUMP] 1 .JUMP
    rfl (by simp) (by simp) rfl]
  show runLoop 1 vm.instruction_memory.length _ = _
  rw [runLoop_fetch_fail 0 vm.instruction_memory.length _
    (by simp; omega) (by simp; omega)]

theorem out_of_range_jump_panics_witness :
    VM.new.instruction_memory.length + 2 < 5 ∧
    run 3 VM.new [.IMM 5, .JUMP] = some .panic :=
  ⟨by decide, out_of_range_jump_panics VM.new 5 (by decide)⟩

/-- C8: for any two `usize` values `a` and `b` pushed in that order,
executing `add`, `sub` or `mul` leaves a single result on top of the
stack equal to `a + b`, `a - b`, `a * b` respectively under the
implementation's unsigned 64-bit machine-integer semantics (release-build
wraparound modulo `2 ^ 64`); the rest of the stack and all other machine
components are unchanged. -/
theorem arith_ops_wraparound (a b : Nat) (vm : VM)
    (ha : a < USIZE_BOUND) (hb : b < USIZE_BOUND) :
    (run 4 vm [.IMM a, .IMM b, .ADD] =
      some (.ok { vm with
                  data_stack := usizeAdd a b :: vm.data_stack
                  instruction_pointer := vm.instruction_memory.length + 3 })) ∧
    (run 4 vm [.IMM a, .IMM b, .SUB] =
      some (.ok { vm with
                  data_stack := usizeSub a b :: vm.data_stack
                  instruction_pointer := vm.instruction_memory.length + 3 })) ∧
    (run 4 vm [.IMM a, .IMM b, .MUL] =
      some (.ok { vm with
                  data_stack := usizeMul a b :: vm.data_stack
                  instruction_pointer := vm.instruction_memory.length + 3 })) := by
  refine ⟨?_, ?_, ?_⟩
  · show runLoop 4 vm.instruction_memory.length _ = _
    rw [runLoop_step_appended 3 _ vm.instruction_memory [.IMM a, .IMM b, .ADD] 0
      (.IMM a) rfl (by simp) (by simp) rfl]
    show runLoop 3 vm.instruction_memory.length _ = _
    rw [runLoop_step_appended 2 _ vm.instruction_memory [.IMM a, .IMM b, .ADD] 1
      (.IMM b) rfl (by simp) (by simp) rfl]
    show runLoop 2 vm.instruction_memory.length _ = _
    rw [runLoop_step_appended 1 _ vm.instruction_memory [.IMM a, .IMM b, .ADD] 2
      .ADD rfl (by simp) (by simp) rfl]
    show runLoop 1 vm.instruction_memory.length _ = _
    rw [runLoop_done 0 vm.instruction_memory.length _ (by simp [Nat.add_assoc])]
    simp [List.take_left, Nat.add_assoc]
  · show runLoop 4 vm.instruction_memory.length _ = _
    rw [runLoop_step_appended 3 _ vm.instruction_memory [.IMM a, .IMM b, .SUB] 0
      (.IMM a) rfl (by simp) (by simp) rfl]
    show runLoop 3 vm.instruction_memory.length _ = _
    rw [runLoop_step_appended 2 _ vm.instruction_memory [.IMM a, .IMM b, .SUB] 1
      (.IMM b) rfl (by simp) (by simp) rfl]
    show runLoop 2 vm.instruction_memory.length _ = _
    rw [runLoop_step_appended 1 _ vm.instruction_memory [.IMM a, .IMM b, .SUB] 2
      .SUB rfl (by simp) (by simp) rfl]
    show runLoop 1 vm.instruction_memory.length _ = _
    rw [runLoop_done 0 vm.instruction_memory.length _ (by simp [Nat.add_assoc])]
    simp [List.take_left, Nat.add_assoc]
  · show runLoop 4 vm.instruction_memory.length _ = _
    rw [runLoop_step_appended 3 _ vm.instruction_memory [.IMM a, .IMM b, .MUL] 0
      (.IMM a) rfl (by simp) (by simp) rfl]
    show runLoop 3 vm.instruction_memory.length _ = _
    rw [runLoop_step_appended 2 _ vm.instruction_memory [.IMM a, .IMM b, .MUL] 1
      (.IMM b) rfl (by simp) (by simp) rfl]
    show runLoop 2 vm.instruction_memory.length _ = _
    rw [runLoop_step_appended 1 _ vm.instruction_memory [.IMM a, .IMM b, .MUL] 2
      .MUL rfl (by simp) (by simp) rfl]
    show runLoop 1 vm.instruction_memory.length _ = _
    rw [runLoop_done 0 vm.instruction_memory.length _ (by simp [Nat.add_assoc])]
    simp [List.take_left, Nat.add_assoc]

theorem arith_ops_wraparound_witness :
    (3 : Nat) < USIZE_BOUND ∧ (4 : Nat) < USIZE_BOUND ∧
    (run 4 VM.new [.IMM 3, .IMM 4, .ADD] =
      some (.ok { VM.new with
                  data_stack := usizeAdd 3 4 :: VM.new.data_stack
                  instruction_pointer := VM.new.instruction_memory.length + 3 })) ∧
    (run 4 VM.new [.IMM 3, .IMM 4, .SUB] =
      some (.ok { VM.new with
                  data_stack := usizeSub 3 4 :: VM.new.data_stack
                  instruction_pointer := VM.new.instruction_memory.length + 3 })) ∧
    (run 4 VM.new [.IMM 3, .IMM 4, .MUL] =
      some (.ok { VM.new with
                  data_stack := usizeMul 3 4 :: VM.new.data_stack
                  instruction_pointer := VM.new.instruction_memory.length + 3 })) :=
  ⟨by decide, by decide,
   (arith_ops_wraparound 3 4 VM.new (by decide) (by decide)).1,
   (arith_ops_wraparound 3 4 VM.new (by decide) (by decide)).2.1,
   (arith_ops_wraparound 3 4 VM.new (by decide) (by decide)).2.2⟩

end ToyForth
